import Mathlib

/-!
Verification development for the playerdemo repository (JUCE DSP demo player:
DSPDemos_Common.h and IIRFilterDemo.h).

The C++ sources are shallowly embedded below.  Doubles are modelled as
rationals, pointers that may be null as `Option`, and the two-thread
interaction between the audio callback (`DSPDemo::getNextAudioBlock`) and the
control thread (`DSPDemo::changeListenerCallback`) as an explicit interleaving
semantics over atomic program steps.
-/

namespace PlayerDemo

/-! ### Slider value semantics

`SliderParameter` (DSPDemos_Common.h, lines 45-70) stores its value in a
`juce::Slider` configured with `setRange (start, end, interval)`.  A value
written with `Slider::setValue` is passed through the slider's
`constrainedValue` function: when the interval is positive the value is first
snapped to the nearest interval step measured from the range start (ties
rounded up, i.e. `floor (x + 1/2)`), and the result is then clamped into the
declared range.  `getCurrentValue` returns the stored value unchanged.  The
skew factor only affects the on-screen position of the knob, never the stored
value, so it is not modelled. -/

/-- Snap `v` to the interval grid anchored at `rmin`, as
`juce::Slider` does before clamping (no-op when the interval is not
positive). -/
def snapValue (rmin interval v : ℚ) : ℚ :=
  if 0 < interval then rmin + interval * (⌊(v - rmin) / interval + 1 / 2⌋ : ℤ) else v

/-- The value actually stored by `juce::Slider::setValue`: snap to the
interval grid, then clamp into the declared range (the lower bound also wins
whenever the range is empty). -/
def constrainedValue (rmin rmax interval v : ℚ) : ℚ :=
  if snapValue rmin interval v ≤ rmin ∨ rmax ≤ rmin then rmin
  else if rmax ≤ snapValue rmin interval v then rmax
  else snapValue rmin interval v

/-- Embedding of `SliderParameter` (DSPDemos_Common.h, lines 45-70): the
declared range, the step interval and the currently stored slider value. -/
structure SliderParameter where
  rangeMin : ℚ
  rangeMax : ℚ
  interval : ℚ
  value : ℚ
deriving DecidableEq

/-- `slider.setValue` as reached through the `SliderParameter` control. -/
def SliderParameter.setValue (p : SliderParameter) (v : ℚ) : SliderParameter :=
  { p with value := constrainedValue p.rangeMin p.rangeMax p.interval v }

/-- `SliderParameter::getCurrentValue` (returns `slider.getValue()`). -/
def SliderParameter.getCurrentValue (p : SliderParameter) : ℚ :=
  p.value

/-- The `SliderParameter` constructor: `setRange` followed by
`setValue (initialValue)` (so the initial value is itself constrained). -/
def SliderParameter.make (rmin rmax interval initial : ℚ) : SliderParameter :=
  SliderParameter.setValue ⟨rmin, rmax, interval, rmin⟩ initial

/-! ### The effect: `IIRFilterDemoDSP` (IIRFilterDemo.h, lines 63-120)

The pitch shifter itself is an opaque collaborator; the only state it receives
from this code is the semitone shift pushed by `setShiftSemitones`, recorded
here as `shifterSemitones`.  `updateParameters` guards the push with
`! approximatelyEqual (sampleRate, 0.0)`; the stored sample rate is either the
initial `0.0` or a genuine device rate delivered by `prepare`, so the guard is
modelled as an exact comparison with zero. -/

structure IIRFilterDemoDSP where
  shifterSemitones : ℚ
  pitchParam : SliderParameter
  tempoParam : SliderParameter
  sampleRate : ℚ
deriving DecidableEq

/-- Member initializers of `IIRFilterDemoDSP`:
`pitchParam { { 0.0, 12.0 }, 1.0, 0.0, "Pitch", "", 1.0 }`,
`tempoParam { { 0.25, 2.0 }, 1.0, 1.0, "Speed", "x", 0.25 }`,
`sampleRate = 0.0`; the freshly constructed shifter has no semitone shift. -/
def IIRFilterDemoDSP.init : IIRFilterDemoDSP :=
  { shifterSemitones := 0
    pitchParam := SliderParameter.make 0 12 1 0
    tempoParam := SliderParameter.make (1 / 4) 2 (1 / 4) 1
    sampleRate := 0 }

/-- `IIRFilterDemoDSP::prepare` (lines 65-72): stores the process spec's
sample rate and prepares the shifter. -/
def IIRFilterDemoDSP.prepare (d : IIRFilterDemoDSP) (rate : ℚ) : IIRFilterDemoDSP :=
  { d with sampleRate := rate }

/-- `IIRFilterDemoDSP::updateParameters` (lines 86-105): when the stored
sample rate is non-zero, push the pitch slider's current value into the
shifter; otherwise do nothing. -/
def IIRFilterDemoDSP.updateParameters (d : IIRFilterDemoDSP) : IIRFilterDemoDSP :=
  if d.sampleRate = 0 then d
  else { d with shifterSemitones := d.pitchParam.getCurrentValue }

/-! ### The effect host: `DSPDemo` (DSPDemos_Common.h, lines 276-338)

`resampleRatioVal` models the `resampleSource` pointer together with the
resampling ratio it currently holds: `none` is a null pointer, `some r` a live
`ResamplingAudioSource` whose ratio is `r`.  The constructor receives the
resampler by reference, so a constructed demo always carries `some r`. -/

structure DSPDemo where
  processor : IIRFilterDemoDSP
  resampleRatioVal : Option ℚ
deriving DecidableEq

/-- `DSPDemo::changeListenerCallback` (lines 324-332): under the audio lock,
call the effect's `updateParameters`, then, if the resampler pointer is
non-null, push the tempo parameter's current value into the resampler as its
new ratio.  (Lock acquisition itself is modelled by the interleaving
semantics below; this function is the state transformation performed inside
the critical section.) -/
def DSPDemo.changeListenerCallback (d : DSPDemo) : DSPDemo :=
  let p := d.processor.updateParameters
  { processor := p
    resampleRatioVal :=
      match d.resampleRatioVal with
      | some _ => some p.tempoParam.getCurrentValue
      | none => none }

/-! ### Interleaving model of the audio lock (`DSPDemo::audioCallbackLock`)

`getNextAudioBlock` (lines 302-317) performs, in order:
pc 0: `resampleSource->getNextAudioBlock (bufferToFill)` — the block pull,
      which reads the current resampling ratio; this happens BEFORE the
      `ScopedLock` is taken;
pc 1: `ScopedLock audioLock (audioCallbackLock)` — acquire;
pc 2: `this->process (...)` — reads the effect's current coefficients;
pc 3: release (end of scope).

`changeListenerCallback` (lines 324-332) performs:
pc 0: `ScopedLock audioLock (audioCallbackLock)` — acquire;
pc 1: `processor.updateParameters()` — writes the coefficients;
pc 2: `resampleSource->setResamplingRatio (...)` — writes the ratio;
pc 3: release.

Coefficients and ratio are abstracted to natural-number version counters.
`obsRatioVal` and `obsCoeffs` record the values the in-flight block observed
at its pull and process steps. -/

structure HostState where
  lockOwner : Option Bool
  coeffs : ℕ
  ratioVal : ℕ
  pullPC : ℕ
  recPC : ℕ
  obsRatioVal : Option ℕ
  obsCoeffs : Option ℕ
deriving DecidableEq

/-- One atomic step of the chosen thread (`true` = audio thread running
`getNextAudioBlock`, `false` = control thread running
`changeListenerCallback`).  A thread scheduled while blocked on the lock, or
after it has finished, leaves the state unchanged.  `c1`/`r1` are the
coefficient and ratio values the recompute writes. -/
def hostStep (c1 r1 : ℕ) (th : Bool) (s : HostState) : HostState :=
  if th then
    match s.pullPC with
    | 0 => { s with obsRatioVal := some s.ratioVal, pullPC := 1 }
    | 1 => if s.lockOwner = none then { s with lockOwner := some true, pullPC := 2 } else s
    | 2 => { s with obsCoeffs := some s.coeffs, pullPC := 3 }
    | 3 => { s with lockOwner := none, pullPC := 4 }
    | _ + 4 => s
  else
    match s.recPC with
    | 0 => if s.lockOwner = none then { s with lockOwner := some false, recPC := 1 } else s
    | 1 => { s with coeffs := c1, recPC := 2 }
    | 2 => { s with ratioVal := r1, recPC := 3 }
    | 3 => { s with lockOwner := none, recPC := 4 }
    | _ + 4 => s

/-- Run a schedule (list of thread choices) from a state. -/
def hostRun (c1 r1 : ℕ) (sched : List Bool) (s : HostState) : HostState :=
  sched.foldl (fun st th => hostStep c1 r1 th st) s

/-- Initial state: lock free, both routines at their entry, nothing observed,
current coefficient/ratio versions `c0`/`r0`. -/
def initHost (c0 r0 : ℕ) : HostState :=
  ⟨none, c0, r0, 0, 0, none, none⟩

/-- A schedule that runs the recompute routine to completion. -/
def recSched : List Bool := [false, false, false, false]

/-- A schedule consisting only of audio-thread steps. -/
def pullOnlySched (l : List Bool) : Prop := ∀ b ∈ l, b = true

/-- `true` when, at some point of the schedule, the audio thread executes its
ratio-reading pull step while the control thread is inside its audio-lock
critical section (i.e. the audio lock does not serialize the block pull's
ratio read against the recompute). -/
def ratioReadDuringRec (c1 r1 : ℕ) : List Bool → HostState → Bool
  | [], _ => false
  | th :: rest, s =>
    (th && s.pullPC == 0 && (s.recPC == 1 || s.recPC == 2 || s.recPC == 3)) ||
      ratioReadDuringRec c1 r1 rest (hostStep c1 r1 th s)

/-- The audio thread is inside the `ScopedLock` region of
`getNextAudioBlock` (about to process, or about to release). -/
def pullInCS (s : HostState) : Prop := s.pullPC = 2 ∨ s.pullPC = 3

/-- The control thread is inside the `ScopedLock` region of
`changeListenerCallback`. -/
def recInCS (s : HostState) : Prop :=
  s.recPC = 1 ∨ s.recPC = 2 ∨ s.recPC = 3

/-- Lock/program-counter consistency: the audio thread is inside its critical
section exactly when it owns the lock, and likewise for the control thread. -/
def lockInv (s : HostState) : Prop :=
  (pullInCS s ↔ s.lockOwner = some true) ∧ (recInCS s ↔ s.lockOwner = some false)

/-- Invariant holding after the recompute has fully completed: the live
coefficient and ratio versions are the recomputed ones, and whatever the
audio thread has already observed in the current block is the recomputed
value. -/
def postRecInv (c1 r1 : ℕ) (s : HostState) : Prop :=
  s.coeffs = c1 ∧ s.ratioVal = r1 ∧ s.recPC = 4 ∧
    (1 ≤ s.pullPC → s.obsRatioVal = some r1) ∧
    (3 ≤ s.pullPC → s.obsCoeffs = some c1)

/-- Claim C2 as stated: for every interleaving, (a) a recompute that
completes before a block pull begins is visible within that block; (b) a
recompute arriving while a block is in flight (the block's first step
precedes every recompute step) is deferred to the next block, so the
in-flight block observes only the pre-recompute ratio and coefficients; and
(c) the block pull never reads the resampling ratio while a recompute inside
the audio-lock critical section writes it. -/
def C2_stated : Prop :=
  ∀ c0 r0 c1 r1 : ℕ,
    (∀ post, pullOnlySched post →
      (hostRun c1 r1 (recSched ++ post) (initHost c0 r0)).pullPC = 4 →
      (hostRun c1 r1 (recSched ++ post) (initHost c0 r0)).obsCoeffs = some c1 ∧
        (hostRun c1 r1 (recSched ++ post) (initHost c0 r0)).obsRatioVal = some r1) ∧
    (∀ rest,
      (hostRun c1 r1 (true :: rest) (initHost c0 r0)).pullPC = 4 →
      (hostRun c1 r1 (true :: rest) (initHost c0 r0)).recPC = 4 →
      (hostRun c1 r1 (true :: rest) (initHost c0 r0)).obsCoeffs = some c0 ∧
        (hostRun c1 r1 (true :: rest) (initHost c0 r0)).obsRatioVal = some r0) ∧
    (∀ sched, ratioReadDuringRec c1 r1 sched (initHost c0 r0) = false)

/-! ### Transport and file loading: `AudioFileReaderComponent`
(DSPDemos_Common.h, lines 341-688)

`readerLoaded` models `readerSource != nullptr` (the reader and the reader
source are created and destroyed together), `transportExists` models
`transportSource != nullptr`, `transportPlaying` the transport's own playing
flag, and `currentPosition`/`lengthSeconds` the transport's position and
stream length in seconds.  `playState` is the component's `playState`
`Value`. -/

structure ReaderState where
  playState : Bool
  readerLoaded : Bool
  transportExists : Bool
  transportPlaying : Bool
  currentPosition : ℚ
  lengthSeconds : ℚ
deriving DecidableEq

/-- `AudioFileReaderComponent::stop` (lines 440-449): clear the play state;
if a transport source exists, stop it and reset its position to 0. -/
def ReaderState.stop (s : ReaderState) : ReaderState :=
  let s1 := { s with playState := false }
  if s1.transportExists then
    { s1 with transportPlaying := false, currentPosition := 0 }
  else s1

/-- `AudioFileReaderComponent::play` (lines 489-500): no-op when no reader
source is loaded; otherwise reset the position to 0 when it is at or past the
stream end or negative, then start the transport and set the play state. -/
def ReaderState.play (s : ReaderState) : ReaderState :=
  if s.readerLoaded = false then s
  else
    let s1 :=
      if s.lengthSeconds ≤ s.currentPosition ∨ s.currentPosition < 0 then
        { s with currentPosition := 0 }
      else s
    { s1 with transportPlaying := true, playState := true }

/-- Outcome of trying to open and decode the URL handed to `loadURL`:
`makeInputSource` may fail, `createInputStream` may fail, and
`createReaderFor` may find no matching decoder; otherwise a reader with the
given stream length is produced. -/
inductive LoadOutcome where
  | noSource : LoadOutcome
  | noStream : LoadOutcome
  | noDecoder : LoadOutcome
  | ok : ℚ → LoadOutcome
deriving DecidableEq

/-- Whether the outcome is one of the three failure cases. -/
def LoadOutcome.isFailure : LoadOutcome → Bool
  | .ok _ => false
  | _ => true

/-- `AudioFileReaderComponent::loadURL` (lines 399-430): first `stop()`, then
detach the player and destroy the transport and reader sources; only then try
to open the source, its stream and a decoder, returning `false` on any
failure.  On success a new reader source is created and `init()` rebuilds a
fresh transport (position 0, stopped) wired to the new reader. -/
def ReaderState.loadURL (s : ReaderState) (o : LoadOutcome) : ReaderState × Bool :=
  let s1 := s.stop
  let s2 := { s1 with transportExists := false, readerLoaded := false }
  match o with
  | .noSource => (s2, false)
  | .noStream => (s2, false)
  | .noDecoder => (s2, false)
  | .ok len =>
    ({ s2 with readerLoaded := true, transportExists := true,
               transportPlaying := false, currentPosition := 0,
               lengthSeconds := len }, true)

/-- Claim C1 as stated: a failing load reports the failure and leaves the
previous session (the whole reader state, including position and play
readiness) exactly as it was. -/
def C1_stated : Prop :=
  ∀ (s : ReaderState) (o : LoadOutcome), o.isFailure = true →
    s.loadURL o = (s, false)

/-- `AudioThumbnailComponent::mouseDrag` (lines 211-220): the seek position
handed to `setPosition` is `(jmax (x, 0) / width) * totalLength`. -/
def mouseDragSeek (x w len : ℚ) : ℚ :=
  max x 0 / w * len

/-- Claim C7 as stated: for every drag target the resulting position lies in
`[0, totalLength)`. -/
def C7_stated : Prop :=
  ∀ x w len : ℚ, 0 < w → 0 < len →
    0 ≤ mouseDragSeek x w len ∧ mouseDragSeek x w len < len

/-- Claim C6 as stated, for the two continuous-range parameters of the
program (pitch and tempo): writing an in-range value and reading yields that
exact value, and writing an out-of-range value yields the nearest bound. -/
def C6_stated : Prop :=
  ∀ p : SliderParameter,
    (p = IIRFilterDemoDSP.init.pitchParam ∨ p = IIRFilterDemoDSP.init.tempoParam) →
    ∀ v : ℚ,
      (p.rangeMin ≤ v → v ≤ p.rangeMax → (p.setValue v).getCurrentValue = v) ∧
      (v < p.rangeMin → (p.setValue v).getCurrentValue = p.rangeMin) ∧
      (p.rangeMax < v → (p.setValue v).getCurrentValue = p.rangeMax)

/-- The tempo slider's reachable values: inside `[0.25, 2.0]` and on the
quarter-step grid. -/
def tempoGridVal (v : ℚ) : Prop :=
  1 / 4 ≤ v ∧ v ≤ 2 ∧ ∃ k : ℤ, v = k * (1 / 4)

/-! ### Parameter bridge (DSPDemos_Common.h, lines 29, 45-70 and 281-287)

Each slider's `onValueChange` lambda calls `sendChangeMessage()`, and
`juce::Slider::setValue` fires `onValueChange` only when the constrained
value actually differs from the stored one.  Every `DSPDemoParameterBase` is
its own `ChangeBroadcaster`, and `ChangeBroadcaster::sendChangeMessage`
coalesces per broadcaster instance: each broadcaster holds its own pending
asynchronous notification, and the message-thread dispatch delivers one
`changeListenerCallback` (the recompute) per broadcaster whose notification
is pending.  `DSPDemo`'s constructor registers itself as the change listener
of each of the two parameters, so `pitchPending`/`tempoPending` are the two
broadcasters' pending flags and `recomputeCount` counts the recompute
callbacks delivered to the effect host. -/

structure BridgeState where
  pitchParam : SliderParameter
  tempoParam : SliderParameter
  pitchPending : Bool
  tempoPending : Bool
  recomputeCount : ℕ
deriving DecidableEq

/-- A control edit on one of the two registered sliders (`true` = pitch,
`false` = tempo): store the constrained value; when the stored value actually
changes, `onValueChange` runs `sendChangeMessage`, marking the pending
notification of that slider's own broadcaster.  No recompute is executed
here. -/
def BridgeState.sliderSet (s : BridgeState) (which : Bool) (v : ℚ) : BridgeState :=
  if which then
    if constrainedValue s.pitchParam.rangeMin s.pitchParam.rangeMax
        s.pitchParam.interval v = s.pitchParam.value then s
    else
      { s with
        pitchParam := { s.pitchParam with
          value := constrainedValue s.pitchParam.rangeMin s.pitchParam.rangeMax
            s.pitchParam.interval v }
        pitchPending := true }
  else
    if constrainedValue s.tempoParam.rangeMin s.tempoParam.rangeMax
        s.tempoParam.interval v = s.tempoParam.value then s
    else
      { s with
        tempoParam := { s.tempoParam with
          value := constrainedValue s.tempoParam.rangeMin s.tempoParam.rangeMax
            s.tempoParam.interval v }
        tempoPending := true }

/-- Message-thread dispatch of the pending asynchronous notifications: each
broadcaster whose notification is pending delivers one recompute callback to
the effect host (its registered listener), and its flag is cleared. -/
def BridgeState.dispatchChange (s : BridgeState) : BridgeState :=
  { s with
    pitchPending := false
    tempoPending := false
    recomputeCount := s.recomputeCount + (if s.pitchPending then 1 else 0)
      + (if s.tempoPending then 1 else 0) }

/-- Apply a batch of control edits. -/
def BridgeState.applyBatch (s : BridgeState) (batch : List (Bool × ℚ)) : BridgeState :=
  batch.foldl (fun st e => st.sliderSet e.1 e.2) s

/-- The bridge as constructed for this demo: the two parameters of
`IIRFilterDemoDSP`, no pending notifications, no recompute delivered yet. -/
def BridgeState.init : BridgeState :=
  { pitchParam := IIRFilterDemoDSP.init.pitchParam
    tempoParam := IIRFilterDemoDSP.init.tempoParam
    pitchPending := false
    tempoPending := false
    recomputeCount := 0 }

/-- Claim C4 as stated: a batch of control edits performs no recompute by
itself, and a batch of simultaneous edits that changed anything collapses to
exactly one recompute pass at the next dispatch. -/
def C4_stated : Prop :=
  ∀ (s : BridgeState) (batch : List (Bool × ℚ)),
    (s.applyBatch batch).recomputeCount = s.recomputeCount ∧
      (s.pitchPending = false → s.tempoPending = false →
        s.applyBatch batch ≠ s →
        ((s.applyBatch batch).dispatchChange).recomputeCount
          = s.recomputeCount + 1)

/-- A concrete constructed demo used by witnesses: fresh effect state wired
to a resampler whose current ratio is 1. -/
def demo0 : DSPDemo :=
  { processor := IIRFilterDemoDSP.init, resampleRatioVal := some 1 }

/-! ## Theorems -/

lemma snapValue_of_pos (rmin interval v : ℚ) (hI : 0 < interval) :
    snapValue rmin interval v
      = rmin + interval * (⌊(v - rmin) / interval + 1 / 2⌋ : ℤ) := by
  rw [snapValue, if_pos hI]

lemma snapValue_on_grid (rmin interval v : ℚ) (hI : 0 < interval)
    (j : ℤ) (hv : v = rmin + j * interval) : snapValue rmin interval v = v := by
  have hne : interval ≠ 0 := ne_of_gt hI
  have hdiv : (v - rmin) / interval = (j : ℚ) := by
    rw [hv, add_sub_cancel_left, mul_div_assoc, div_self hne, mul_one]
  have hfloor : ⌊(v - rmin) / interval + 1 / 2⌋ = j := by
    rw [hdiv, add_comm, Int.floor_add_int]
    norm_num
  rw [snapValue_of_pos _ _ _ hI, hfloor, hv]
  ring

lemma constrainedValue_on_grid (rmin rmax interval v : ℚ) (hI : 0 < interval)
    (j : ℤ) (hv : v = rmin + j * interval) (h1 : rmin ≤ v) (h2 : v ≤ rmax) :
    constrainedValue rmin rmax interval v = v := by
  rw [constrainedValue, snapValue_on_grid _ _ _ hI j hv]
  split_ifs with hA hB
  · rcases hA with hA | hA <;> linarith
  · linarith
  · rfl

lemma constrainedValue_below (rmin rmax interval v : ℚ) (hI : 0 < interval)
    (hv : v < rmin) : constrainedValue rmin rmax interval v = rmin := by
  have hk : ⌊(v - rmin) / interval + 1 / 2⌋ ≤ 0 := by
    have hd : (v - rmin) / interval < 0 :=
      div_neg_of_neg_of_pos (by linarith) hI
    have hlt : ⌊(v - rmin) / interval + 1 / 2⌋ < 1 := by
      rw [Int.floor_lt]
      push_cast
      linarith
    omega
  have hsnap : snapValue rmin interval v ≤ rmin := by
    rw [snapValue_of_pos _ _ _ hI]
    have hc : ((⌊(v - rmin) / interval + 1 / 2⌋ : ℤ) : ℚ) ≤ 0 := by
      exact_mod_cast hk
    have hm := mul_le_mul_of_nonneg_left hc hI.le
    rw [mul_zero] at hm
    linarith
  rw [constrainedValue, if_pos (Or.inl hsnap)]

lemma constrainedValue_above (rmin rmax interval v : ℚ) (hI : 0 < interval)
    (hlt : rmin < rmax) (n : ℤ) (hn : rmax = rmin + n * interval)
    (hv : rmax < v) : constrainedValue rmin rmax interval v = rmax := by
  have hy : (n : ℚ) < (v - rmin) / interval := by
    rw [lt_div_iff₀ hI]
    linarith
  have hk : n ≤ ⌊(v - rmin) / interval + 1 / 2⌋ := by
    apply Int.le_floor.mpr
    linarith
  have hsnap : rmax ≤ snapValue rmin interval v := by
    rw [snapValue_of_pos _ _ _ hI]
    have hc : (n : ℚ) ≤ ((⌊(v - rmin) / interval + 1 / 2⌋ : ℤ) : ℚ) := by
      exact_mod_cast hk
    have hm := mul_le_mul_of_nonneg_left hc hI.le
    linarith
  rw [constrainedValue, if_neg, if_pos hsnap]
  push_neg
  exact ⟨by linarith, by linarith⟩

lemma constrainedValue_mem (rmin rmax interval v : ℚ) (hI : 0 < interval)
    (hle : rmin ≤ rmax) (n : ℤ) (hn : rmax = rmin + n * interval) :
    rmin ≤ constrainedValue rmin rmax interval v ∧
      constrainedValue rmin rmax interval v ≤ rmax ∧
      ∃ k : ℤ, constrainedValue rmin rmax interval v = rmin + interval * k := by
  rw [constrainedValue]
  split_ifs with hA hB
  · exact ⟨le_refl _, hle, 0, by ring⟩
  · exact ⟨hle, le_refl _, n, by rw [hn]; ring⟩
  · push_neg at hA
    refine ⟨hA.1.le, (not_le.mp hB).le, ⌊(v - rmin) / interval + 1 / 2⌋, ?_⟩
    rw [snapValue_of_pos _ _ _ hI]

lemma constrainedValue_in_range (rmin rmax interval v : ℚ) (hI : 0 < interval)
    (hlt : rmin < rmax) (n : ℤ) (hn : rmax = rmin + n * interval)
    (h1 : rmin ≤ v) (h2 : v ≤ rmax) :
    constrainedValue rmin rmax interval v
      = rmin + interval * (⌊(v - rmin) / interval + 1 / 2⌋ : ℤ) := by
  have hx0 : 0 ≤ (v - rmin) / interval := div_nonneg (by linarith) hI.le
  have hxn : (v - rmin) / interval ≤ (n : ℚ) := by
    rw [div_le_iff₀ hI]
    linarith
  have hk0 : (0 : ℤ) ≤ ⌊(v - rmin) / interval + 1 / 2⌋ := by
    apply Int.le_floor.mpr
    push_cast
    linarith
  have hkn : ⌊(v - rmin) / interval + 1 / 2⌋ ≤ n := by
    have hlt1 : ⌊(v - rmin) / interval + 1 / 2⌋ < n + 1 := by
      rw [Int.floor_lt]
      push_cast
      linarith
    omega
  have hc0 : (0 : ℚ) ≤ ((⌊(v - rmin) / interval + 1 / 2⌋ : ℤ) : ℚ) := by
    exact_mod_cast hk0
  have hcn : ((⌊(v - rmin) / interval + 1 / 2⌋ : ℤ) : ℚ) ≤ (n : ℚ) := by
    exact_mod_cast hkn
  have hs1 : rmin ≤ rmin + interval * (⌊(v - rmin) / interval + 1 / 2⌋ : ℤ) := by
    have hm := mul_le_mul_of_nonneg_left hc0 hI.le
    linarith
  have hs2 : rmin + interval * (⌊(v - rmin) / interval + 1 / 2⌋ : ℤ) ≤ rmax := by
    have hm := mul_le_mul_of_nonneg_left hcn hI.le
    linarith
  rw [constrainedValue, snapValue_of_pos _ _ _ hI]
  split_ifs with hA hB
  · rcases hA with hA | hA <;> linarith
  · linarith
  · rfl

lemma floor_half_nearest (x : ℚ) (j : ℤ) :
    |x - (⌊x + 1 / 2⌋ : ℤ)| ≤ |x - (j : ℚ)| := by
  have h1 : ((⌊x + 1 / 2⌋ : ℤ) : ℚ) ≤ x + 1 / 2 := Int.floor_le _
  have h2 : x + 1 / 2 < (⌊x + 1 / 2⌋ : ℤ) + 1 := Int.lt_floor_add_one _
  have habs : |x - (⌊x + 1 / 2⌋ : ℤ)| ≤ 1 / 2 := by
    rw [abs_le]
    constructor <;> linarith
  rcases lt_trichotomy j ⌊x + 1 / 2⌋ with hj | hj | hj
  · have hj2 : j ≤ ⌊x + 1 / 2⌋ - 1 := by omega
    have hj1 : (j : ℚ) ≤ ((⌊x + 1 / 2⌋ : ℤ) : ℚ) - 1 := by
      exact_mod_cast hj2
    have hge : (1 : ℚ) / 2 ≤ x - j := by linarith
    calc |x - (⌊x + 1 / 2⌋ : ℤ)| ≤ 1 / 2 := habs
      _ ≤ x - (j : ℚ) := hge
      _ ≤ |x - (j : ℚ)| := le_abs_self _
  · simp [hj]
  · have hj2 : ⌊x + 1 / 2⌋ + 1 ≤ j := by omega
    have hj1 : ((⌊x + 1 / 2⌋ : ℤ) : ℚ) + 1 ≤ (j : ℚ) := by
      exact_mod_cast hj2
    have hge : (1 : ℚ) / 2 ≤ (j : ℚ) - x := by linarith
    calc |x - (⌊x + 1 / 2⌋ : ℤ)| ≤ 1 / 2 := habs
      _ ≤ (j : ℚ) - x := hge
      _ ≤ |x - (j : ℚ)| := by rw [abs_sub_comm]; exact le_abs_self _

lemma constrainedValue_nearest (rmin rmax interval v : ℚ) (hI : 0 < interval)
    (hlt : rmin < rmax) (n : ℤ) (hn : rmax = rmin + n * interval)
    (h1 : rmin ≤ v) (h2 : v ≤ rmax) (j : ℤ) :
    |v - constrainedValue rmin rmax interval v|
      ≤ |v - (rmin + interval * j)| := by
  rw [constrainedValue_in_range rmin rmax interval v hI hlt n hn h1 h2]
  have hne : interval ≠ 0 := ne_of_gt hI
  have hx : interval * ((v - rmin) / interval) = v - rmin := by
    rw [mul_comm]
    exact div_mul_cancel₀ _ hne
  have e1 : v - (rmin + interval * (⌊(v - rmin) / interval + 1 / 2⌋ : ℤ))
      = interval * ((v - rmin) / interval
          - (⌊(v - rmin) / interval + 1 / 2⌋ : ℤ)) := by
    rw [mul_sub, hx]
    ring
  have e2 : v - (rmin + interval * j)
      = interval * ((v - rmin) / interval - (j : ℚ)) := by
    rw [mul_sub, hx]
    ring
  rw [e1, e2, abs_mul, abs_mul, abs_of_pos hI]
  exact mul_le_mul_of_nonneg_left
    (floor_half_nearest ((v - rmin) / interval) j) hI.le

/-- Claim C6, counterexample: writing the in-range value 3/10 to the Speed
parameter reads back 1/4, because the slider snaps values to its 0.25
interval grid. -/
theorem c6_counterexample : ¬ C6_stated := by
  intro h
  have h2 := (h IIRFilterDemoDSP.init.tempoParam (Or.inr rfl) (3 / 10)).1
  have h3 := h2
    (by norm_num [IIRFilterDemoDSP.init, SliderParameter.make,
      SliderParameter.setValue])
    (by norm_num [IIRFilterDemoDSP.init, SliderParameter.make,
      SliderParameter.setValue])
  norm_num [IIRFilterDemoDSP.init, SliderParameter.make, SliderParameter.setValue,
    SliderParameter.getCurrentValue, constrainedValue, snapValue] at h3

/-- Claim C6, amended: for a continuous-range parameter with a positive step
interval and a grid-aligned range (as both parameters of this program have),
writing an in-range value that lies on the interval grid and then reading
yields that exact value; every in-range write reads back as the value
snapped to the interval grid (the grid point `rangeMin + interval * floor
((v - rangeMin) / interval + 1/2)`), which is a nearest grid step to the
written value (ties rounded up), so an in-range value off the grid reads
back different from what was written; writing a value outside the range
yields the nearest range bound on a subsequent read. -/
theorem c6_roundTrip (p : SliderParameter) (v : ℚ) (hI : 0 < p.interval)
    (hlt : p.rangeMin < p.rangeMax) (n : ℤ)
    (hn : p.rangeMax = p.rangeMin + n * p.interval) :
    ((∃ j : ℤ, v = p.rangeMin + j * p.interval) →
        p.rangeMin ≤ v → v ≤ p.rangeMax → (p.setValue v).getCurrentValue = v) ∧
      (p.rangeMin ≤ v → v ≤ p.rangeMax →
        (p.setValue v).getCurrentValue
            = p.rangeMin
              + p.interval * (⌊(v - p.rangeMin) / p.interval + 1 / 2⌋ : ℤ) ∧
          ∀ j : ℤ, |v - (p.setValue v).getCurrentValue|
            ≤ |v - (p.rangeMin + p.interval * j)|) ∧
      ((∀ j : ℤ, v ≠ p.rangeMin + p.interval * j) →
        (p.setValue v).getCurrentValue ≠ v) ∧
      (v < p.rangeMin → (p.setValue v).getCurrentValue = p.rangeMin) ∧
      (p.rangeMax < v → (p.setValue v).getCurrentValue = p.rangeMax) := by
  refine ⟨?_, ?_, ?_, ?_, ?_⟩
  · rintro ⟨j, hj⟩ h1 h2
    exact constrainedValue_on_grid _ _ _ _ hI j hj h1 h2
  · intro h1 h2
    exact ⟨constrainedValue_in_range _ _ _ _ hI hlt n hn h1 h2,
      fun j => constrainedValue_nearest _ _ _ _ hI hlt n hn h1 h2 j⟩
  · intro hoff
    obtain ⟨-, -, k, hk⟩ :=
      constrainedValue_mem p.rangeMin p.rangeMax p.interval v hI hlt.le n hn
    have hk2 : (p.setValue v).getCurrentValue
        = p.rangeMin + p.interval * k := hk
    intro heq
    exact hoff k (heq.symm.trans hk2)
  · intro hv
    exact constrainedValue_below _ _ _ _ hI hv
  · intro hv
    exact constrainedValue_above _ _ _ _ hI hlt n hn hv

/-- Claim C6, witness: the Speed parameter at the on-grid value 3/4
round-trips exactly, the out-of-range value 5 clamps to the upper bound 2,
and the off-grid in-range value 3/10 reads back different from what was
written. -/
theorem c6_witness :
    (IIRFilterDemoDSP.init.tempoParam.setValue (3 / 4)).getCurrentValue = 3 / 4 ∧
      (IIRFilterDemoDSP.init.tempoParam.setValue 5).getCurrentValue = 2 ∧
      (IIRFilterDemoDSP.init.tempoParam.setValue (3 / 10)).getCurrentValue
        ≠ 3 / 10 := by
  have h := c6_roundTrip IIRFilterDemoDSP.init.tempoParam (3 / 4)
    (by norm_num [IIRFilterDemoDSP.init, SliderParameter.make, SliderParameter.setValue])
    (by norm_num [IIRFilterDemoDSP.init, SliderParameter.make, SliderParameter.setValue])
    7
    (by norm_num [IIRFilterDemoDSP.init, SliderParameter.make, SliderParameter.setValue])
  have h5 := c6_roundTrip IIRFilterDemoDSP.init.tempoParam 5
    (by norm_num [IIRFilterDemoDSP.init, SliderParameter.make, SliderParameter.setValue])
    (by norm_num [IIRFilterDemoDSP.init, SliderParameter.make, SliderParameter.setValue])
    7
    (by norm_num [IIRFilterDemoDSP.init, SliderParameter.make, SliderParameter.setValue])
  have h3 := c6_roundTrip IIRFilterDemoDSP.init.tempoParam (3 / 10)
    (by norm_num [IIRFilterDemoDSP.init, SliderParameter.make, SliderParameter.setValue])
    (by norm_num [IIRFilterDemoDSP.init, SliderParameter.make, SliderParameter.setValue])
    7
    (by norm_num [IIRFilterDemoDSP.init, SliderParameter.make, SliderParameter.setValue])
  refine ⟨h.1 ⟨2, ?_⟩ ?_ ?_, h5.2.2.2.2 ?_, h3.2.2.1 ?_⟩
  · norm_num [IIRFilterDemoDSP.init, SliderParameter.make, SliderParameter.setValue]
  · norm_num [IIRFilterDemoDSP.init, SliderParameter.make, SliderParameter.setValue]
  · norm_num [IIRFilterDemoDSP.init, SliderParameter.make, SliderParameter.setValue]
  · norm_num [IIRFilterDemoDSP.init, SliderParameter.make, SliderParameter.setValue]
  · intro j hj
    rw [show IIRFilterDemoDSP.init.tempoParam.rangeMin = 1 / 4 from rfl,
      show IIRFilterDemoDSP.init.tempoParam.interval = 1 / 4 from rfl] at hj
    have h51 : (5 : ℚ) * ((j : ℤ) : ℚ) = 1 := by linarith
    have h52 : (5 : ℤ) * j = 1 := by exact_mod_cast h51
    omega

/-- Claim C7, counterexample: dragging to x = 200 on a 100-pixel-wide
thumbnail of a 10-second stream seeks to position 20, which is not inside
`[0, 10)`: the drag target is clamped below at 0 but not above. -/
theorem c7_counterexample : ¬ C7_stated := by
  intro h
  have h2 := (h 200 100 10 (by norm_num) (by norm_num)).2
  norm_num [mouseDragSeek] at h2

/-- Claim C7, amended: for every drag target the resulting position is
clamped below at 0; it stays at most the total length only while the drag
x-coordinate stays within the component's width, and reaches or exceeds the
total length as soon as the x-coordinate reaches or exceeds the width — no
upper clamping is performed. -/
theorem c7_seek (x w len : ℚ) (hw : 0 < w) (hlen : 0 ≤ len) :
    0 ≤ mouseDragSeek x w len ∧
      (x ≤ w → mouseDragSeek x w len ≤ len) ∧
      (w ≤ x → len ≤ mouseDragSeek x w len) := by
  unfold mouseDragSeek
  refine ⟨?_, ?_, ?_⟩
  · exact mul_nonneg (div_nonneg (le_max_of_le_right (le_refl 0)) hw.le) hlen
  · intro hx
    have h1 : max x 0 ≤ w := max_le hx hw.le
    have h2 : max x 0 / w ≤ 1 := (div_le_one hw).mpr h1
    calc max x 0 / w * len ≤ 1 * len := mul_le_mul_of_nonneg_right h2 hlen
      _ = len := one_mul len
  · intro hx
    have h1 : w ≤ max x 0 := le_trans hx (le_max_left x 0)
    have h2 : 1 ≤ max x 0 / w := (one_le_div hw).mpr h1
    calc len = 1 * len := (one_mul len).symm
      _ ≤ max x 0 / w * len := mul_le_mul_of_nonneg_right h2 hlen

/-- Claim C7, witness: a drag to x = 50 on a 100-pixel thumbnail of a
10-second stream lands inside `[0, 10]`. -/
theorem c7_witness :
    0 ≤ mouseDragSeek 50 100 10 ∧ mouseDragSeek 50 100 10 ≤ 10 :=
  ⟨(c7_seek 50 100 10 (by norm_num) (by norm_num)).1,
    (c7_seek 50 100 10 (by norm_num) (by norm_num)).2.1 (by norm_num)⟩

/-- Claim C9: while the effect's stored sample rate is still 0 (as it is
before the first `prepare` call), `updateParameters` leaves the effect state,
and in particular the pitch shifter's semitone setting, completely unchanged:
the semitone value is never pushed with a zero sample rate. -/
theorem c9_updateParameters_zero_rate (d : IIRFilterDemoDSP)
    (h : d.sampleRate = 0) :
    d.updateParameters = d ∧ IIRFilterDemoDSP.init.sampleRate = 0 :=
  ⟨by rw [IIRFilterDemoDSP.updateParameters, if_pos h], rfl⟩

/-- Claim C9, witness: the freshly constructed effect has sample rate 0 and
its first recompute leaves it unchanged. -/
theorem c9_witness :
    IIRFilterDemoDSP.init.updateParameters = IIRFilterDemoDSP.init ∧
      IIRFilterDemoDSP.init.sampleRate = 0 :=
  c9_updateParameters_zero_rate IIRFilterDemoDSP.init rfl

/-- Claim C5: `play()` leaves the state unchanged when no reader source is
loaded; when one is loaded and the position is at or past the stream end or
negative, it resets the position to 0 and starts playback; otherwise it
starts playback at the unchanged current position. -/
theorem c5_play (s : ReaderState) :
    (s.readerLoaded = false → s.play = s) ∧
      (s.readerLoaded = true →
        (s.lengthSeconds ≤ s.currentPosition ∨ s.currentPosition < 0) →
        (s.play).currentPosition = 0 ∧ (s.play).playState = true ∧
          (s.play).transportPlaying = true) ∧
      (s.readerLoaded = true → 0 ≤ s.currentPosition →
        s.currentPosition < s.lengthSeconds →
        (s.play).currentPosition = s.currentPosition ∧
          (s.play).playState = true ∧ (s.play).transportPlaying = true) := by
  refine ⟨?_, ?_, ?_⟩
  · intro h
    rw [ReaderState.play, if_pos h]
  · intro h hcond
    rw [ReaderState.play, if_neg (by simp [h]), if_pos hcond]
    exact ⟨rfl, rfl, rfl⟩
  · intro h h0 hlt
    rw [ReaderState.play, if_neg (by simp [h]),
      if_neg (by push_neg; exact ⟨by linarith, h0⟩)]
    exact ⟨rfl, rfl, rfl⟩

/-- Claim C5, witness: with a loaded session whose position 12 is past the
10-second stream end, `play` restarts from 0; with no session, `play` is the
identity. -/
theorem c5_witness :
    (ReaderState.play ⟨false, true, true, false, 12, 10⟩).currentPosition = 0 ∧
      (ReaderState.play ⟨false, true, true, false, 12, 10⟩).playState = true ∧
      ReaderState.play ⟨false, false, true, false, 12, 10⟩
        = ⟨false, false, true, false, 12, 10⟩ :=
  ⟨((c5_play ⟨false, true, true, false, 12, 10⟩).2.1 rfl
      (Or.inl (by norm_num))).1,
    ((c5_play ⟨false, true, true, false, 12, 10⟩).2.1 rfl
      (Or.inl (by norm_num))).2.1,
    (c5_play ⟨false, false, true, false, 12, 10⟩).1 rfl⟩

/-- Claim C10: `stop()` always clears the play state; whenever a transport
source exists it also stops the transport and resets the position to 0, so a
subsequent `play` on a loaded session starts playback from position 0. -/
theorem c10_stop (s : ReaderState) :
    (s.stop).playState = false ∧
      (s.transportExists = true →
        (s.stop).currentPosition = 0 ∧ (s.stop).transportPlaying = false) ∧
      (s.readerLoaded = true → s.transportExists = true →
        ((s.stop).play).currentPosition = 0 ∧ ((s.stop).play).playState = true) := by
  have hstop : s.stop =
      if s.transportExists then
        { s with playState := false, transportPlaying := false, currentPosition := 0 }
      else { s with playState := false } := by
    rw [ReaderState.stop]
  refine ⟨?_, ?_, ?_⟩
  · rw [hstop]
    split_ifs <;> rfl
  · intro ht
    rw [hstop, if_pos ht]
    exact ⟨rfl, rfl⟩
  · intro hr ht
    rw [hstop, if_pos ht, ReaderState.play, if_neg (by simp [hr])]
    split_ifs <;> exact ⟨rfl, rfl⟩

/-- Claim C10, witness: stopping a playing 10-second session at position 5
clears the play flag, rewinds to 0, and a following `play` starts from 0. -/
theorem c10_witness :
    (ReaderState.stop ⟨true, true, true, true, 5, 10⟩).playState = false ∧
      (ReaderState.stop ⟨true, true, true, true, 5, 10⟩).currentPosition = 0 ∧
      ((ReaderState.stop ⟨true, true, true, true, 5, 10⟩).play).currentPosition = 0 :=
  ⟨(c10_stop ⟨true, true, true, true, 5, 10⟩).1,
    ((c10_stop ⟨true, true, true, true, 5, 10⟩).2.1 rfl).1,
    ((c10_stop ⟨true, true, true, true, 5, 10⟩).2.2 rfl rfl).1⟩

/-- Claim C1, counterexample: loading an unreadable stream over a session
that is playing at position 5 of a 10-second stream reports failure but does
not leave the session untouched — playback is stopped, the position reset
and the session discarded before the failure is detected. -/
theorem c1_counterexample : ¬ C1_stated := by
  intro h
  have h2 := h ⟨true, true, true, true, 5, 10⟩ .noStream rfl
  simp [ReaderState.loadURL, ReaderState.stop] at h2

/-- Claim C1, amended: a `load` whose source cannot be opened or decoded
reports the failure to its caller (returns false), but the previously loaded
session is not preserved: `loadURL` unconditionally stops playback and tears
the session down before attempting to open the source, so after a failed
load the play state is false, no reader or transport remains, and the
position of a previously existing transport has been reset to 0. -/
theorem c1_load_failure (s : ReaderState) (o : LoadOutcome)
    (h : o.isFailure = true) :
    (s.loadURL o).2 = false ∧
      (s.loadURL o).1.playState = false ∧
      (s.loadURL o).1.readerLoaded = false ∧
      (s.loadURL o).1.transportExists = false ∧
      (s.transportExists = true → (s.loadURL o).1.currentPosition = 0) := by
  cases o with
  | ok len => simp [LoadOutcome.isFailure] at h
  | noSource =>
    simp only [ReaderState.loadURL, ReaderState.stop]
    split_ifs with ht <;> simp_all
  | noStream =>
    simp only [ReaderState.loadURL, ReaderState.stop]
    split_ifs with ht <;> simp_all
  | noDecoder =>
    simp only [ReaderState.loadURL, ReaderState.stop]
    split_ifs with ht <;> simp_all

/-- Claim C1, witness: the failed load of the counterexample indeed returns
false, with play state cleared and position 0. -/
theorem c1_witness :
    (ReaderState.loadURL ⟨true, true, true, true, 5, 10⟩ .noStream).2 = false ∧
      (ReaderState.loadURL ⟨true, true, true, true, 5, 10⟩ .noStream).1.playState
        = false ∧
      (ReaderState.loadURL ⟨true, true, true, true, 5, 10⟩
          .noStream).1.currentPosition = 0 :=
  ⟨(c1_load_failure ⟨true, true, true, true, 5, 10⟩ .noStream rfl).1,
    (c1_load_failure ⟨true, true, true, true, 5, 10⟩ .noStream rfl).2.1,
    (c1_load_failure ⟨true, true, true, true, 5, 10⟩ .noStream rfl).2.2.2.2 rfl⟩

lemma lockInv_initHost (c0 r0 : ℕ) : lockInv (initHost c0 r0) := by
  simp [lockInv, initHost, pullInCS, recInCS]

lemma lockInv_step (c1 r1 : ℕ) (th : Bool) (s : HostState) (h : lockInv s) :
    lockInv (hostStep c1 r1 th s) := by
  obtain ⟨h1, h2⟩ := h
  rcases s with ⟨lk, c, r, ppc, rpc, oR, oC⟩
  simp only [pullInCS, recInCS] at h1 h2
  cases th
  · rcases rpc with _ | _ | _ | _ | rpc <;>
      simp_all [hostStep, lockInv, pullInCS, recInCS] <;>
      split_ifs <;>
      simp_all
  · rcases ppc with _ | _ | _ | _ | ppc <;>
      simp_all [hostStep, lockInv, pullInCS, recInCS] <;>
      split_ifs <;>
      simp_all

lemma lockInv_run (c1 r1 : ℕ) (sched : List Bool) (s : HostState)
    (h : lockInv s) : lockInv (hostRun c1 r1 sched s) := by
  induction sched generalizing s with
  | nil => exact h
  | cons b rest ih => exact ih (hostStep c1 r1 b s) (lockInv_step c1 r1 b s h)

lemma hostRun_append (c1 r1 : ℕ) (s1 s2 : List Bool) (s : HostState) :
    hostRun c1 r1 (s1 ++ s2) s = hostRun c1 r1 s2 (hostRun c1 r1 s1 s) := by
  simp [hostRun, List.foldl_append]

lemma hostRun_recSched (c1 r1 c0 r0 : ℕ) :
    hostRun c1 r1 recSched (initHost c0 r0) = ⟨none, c1, r1, 0, 4, none, none⟩ :=
  rfl

lemma postRecInv_step (c1 r1 : ℕ) (s : HostState) (h : postRecInv c1 r1 s) :
    postRecInv c1 r1 (hostStep c1 r1 true s) := by
  obtain ⟨hc, hr, hrec, ho1, ho2⟩ := h
  rcases s with ⟨lk, c, r, ppc, rpc, oR, oC⟩
  dsimp only at hc hr hrec ho1 ho2
  subst hc hr hrec
  rcases ppc with _ | _ | _ | _ | ppc <;>
    simp_all [hostStep, postRecInv] <;>
    split_ifs <;>
    simp_all

lemma postRecInv_run (c1 r1 : ℕ) :
    ∀ (post : List Bool) (s : HostState), pullOnlySched post →
      postRecInv c1 r1 s → postRecInv c1 r1 (hostRun c1 r1 post s) := by
  intro post
  induction post with
  | nil => intro s _ h; exact h
  | cons b rest ih =>
    intro s hp h
    have hb : b = true := hp b (List.mem_cons_self b rest)
    subst hb
    exact ih (hostStep c1 r1 true s)
      (fun x hx => hp x (List.mem_cons_of_mem _ hx))
      (postRecInv_step c1 r1 s h)

/-- Claim C2, counterexample: the schedule in which the audio thread first
performs its resampler pull, then a full recompute runs, then the audio
thread finishes the block, completes both routines, yet the block observes
the new coefficients together with the old ratio — the recompute arriving
while the block was in flight was applied within that block, not deferred to
the next one. -/
theorem c2_counterexample : ¬ C2_stated := by
  intro h
  have hd := ((h 0 0 1 1).2.1 (recSched ++ [true, true, true])
    (by decide) (by decide)).1
  exact absurd hd (by decide)

/-- Claim C2, amended: a recompute that completes before a block pull begins
is visible within that block, and the audio lock makes the effect-process
step mutually exclusive with the recompute's critical section; but the
block's resampler pull runs before the lock is taken, so a recompute
arriving while a block is in flight can execute between the pull and the
process step — the in-flight block may combine the old resampling ratio with
the new coefficients, and the pull's ratio read can happen while a recompute
holding the audio lock is mid-update. -/
theorem c2_lock_semantics (c0 r0 c1 r1 : ℕ) :
    (∀ post, pullOnlySched post →
      (hostRun c1 r1 (recSched ++ post) (initHost c0 r0)).pullPC = 4 →
      (hostRun c1 r1 (recSched ++ post) (initHost c0 r0)).obsCoeffs = some c1 ∧
        (hostRun c1 r1 (recSched ++ post) (initHost c0 r0)).obsRatioVal
          = some r1) ∧
      (∀ sched, ¬ (pullInCS (hostRun c1 r1 sched (initHost c0 r0)) ∧
        recInCS (hostRun c1 r1 sched (initHost c0 r0)))) ∧
      ((hostRun c1 r1 (true :: (recSched ++ [true, true, true]))
          (initHost c0 r0)).obsRatioVal = some r0 ∧
        (hostRun c1 r1 (true :: (recSched ++ [true, true, true]))
          (initHost c0 r0)).obsCoeffs = some c1) ∧
      ratioReadDuringRec c1 r1 [false, true] (initHost c0 r0) = true := by
  refine ⟨?_, ?_, ⟨rfl, rfl⟩, rfl⟩
  · intro post hp h4
    rw [hostRun_append] at h4 ⊢
    have hinv := postRecInv_run c1 r1 post
      (hostRun c1 r1 recSched (initHost c0 r0)) hp
      (by rw [hostRun_recSched]; exact ⟨rfl, rfl, rfl, by simp, by simp⟩)
    obtain ⟨-, -, -, ho1, ho2⟩ := hinv
    exact ⟨ho2 (by omega), ho1 (by omega)⟩
  · intro sched hcs
    have hinv := lockInv_run c1 r1 sched (initHost c0 r0)
      (lockInv_initHost c0 r0)
    have ht := hinv.1.mp hcs.1
    have hf := hinv.2.mp hcs.2
    rw [ht] at hf
    exact Bool.noConfusion (Option.some.inj hf)

/-- Claim C2, witness: with old versions 0 and new versions 1, a completed
recompute followed by a complete block pull makes the block observe the new
coefficients and the new ratio, and no schedule puts both threads inside the
audio-lock region at once. -/
theorem c2_witness :
    ((hostRun 1 1 (recSched ++ [true, true, true, true])
        (initHost 0 0)).obsCoeffs = some 1 ∧
      (hostRun 1 1 (recSched ++ [true, true, true, true])
        (initHost 0 0)).obsRatioVal = some 1) ∧
      ¬ (pullInCS (hostRun 1 1 [true, false] (initHost 0 0)) ∧
        recInCS (hostRun 1 1 [true, false] (initHost 0 0))) :=
  ⟨(c2_lock_semantics 0 0 1 1).1 [true, true, true, true]
      (by simp [pullOnlySched]) (by decide),
    (c2_lock_semantics 0 0 1 1).2.1 [true, false]⟩

/-- Claim C3: a parameter-recompute request performs the effect's
`updateParameters` (which, once prepared, pushes the pitch parameter's
current value into the shifter's coefficients) and then pushes the tempo
parameter's current value into the resampler as its ratio; and in the lock
model its writes only ever execute while it holds the audio lock. -/
theorem c3_recompute (d : DSPDemo) (r0 : ℚ) (h : d.resampleRatioVal = some r0) :
    d.changeListenerCallback.processor = d.processor.updateParameters ∧
      (d.processor.sampleRate ≠ 0 →
        d.changeListenerCallback.processor.shifterSemitones
          = d.processor.pitchParam.getCurrentValue) ∧
      d.changeListenerCallback.resampleRatioVal
        = some (d.processor.tempoParam.getCurrentValue) ∧
      (∀ c0 r0n c1 r1 : ℕ, ∀ sched : List Bool,
        recInCS (hostRun c1 r1 sched (initHost c0 r0n)) →
        (hostRun c1 r1 sched (initHost c0 r0n)).lockOwner = some false) := by
  refine ⟨rfl, ?_, ?_, ?_⟩
  · intro h0
    simp [DSPDemo.changeListenerCallback, IIRFilterDemoDSP.updateParameters,
      if_neg h0]
  · have htempo : d.processor.updateParameters.tempoParam
        = d.processor.tempoParam := by
      rw [IIRFilterDemoDSP.updateParameters]
      split_ifs <;> rfl
    simp [DSPDemo.changeListenerCallback, h, htempo]
  · intro c0 r0n c1 r1 sched hcs
    exact (lockInv_run c1 r1 sched (initHost c0 r0n)
      (lockInv_initHost c0 r0n)).2.mp hcs

/-- Claim C3, witness: on a freshly constructed demo, the recompute pushes
the tempo value into the resampler, and a recompute that has taken its first
step holds the audio lock. -/
theorem c3_witness :
    demo0.changeListenerCallback.resampleRatioVal
        = some (demo0.processor.tempoParam.getCurrentValue) ∧
      (hostRun 1 1 [false] (initHost 0 0)).lockOwner = some false :=
  ⟨(c3_recompute demo0 1 rfl).2.2.1,
    (c3_recompute demo0 1 rfl).2.2.2 0 0 1 1 [false] (Or.inl rfl)⟩

lemma sliderSet_recomputeCount (s : BridgeState) (which : Bool) (v : ℚ) :
    (s.sliderSet which v).recomputeCount = s.recomputeCount := by
  cases which
  · rw [BridgeState.sliderSet, if_neg (by simp)]
    split_ifs <;> rfl
  · rw [BridgeState.sliderSet, if_pos rfl]
    split_ifs <;> rfl

lemma applyBatch_recomputeCount (batch : List (Bool × ℚ)) (s : BridgeState) :
    (s.applyBatch batch).recomputeCount = s.recomputeCount := by
  induction batch generalizing s with
  | nil => rfl
  | cons e rest ih =>
    have hcons : s.applyBatch (e :: rest)
        = (s.sliderSet e.1 e.2).applyBatch rest := rfl
    rw [hcons, ih, sliderSet_recomputeCount]

lemma sliderSet_pitchPending_mono (s : BridgeState) (which : Bool) (v : ℚ)
    (h : s.pitchPending = true) : (s.sliderSet which v).pitchPending = true := by
  cases which
  · rw [BridgeState.sliderSet, if_neg (by simp)]
    split_ifs
    · exact h
    · exact h
  · rw [BridgeState.sliderSet, if_pos rfl]
    split_ifs
    · exact h
    · rfl

lemma sliderSet_changed_pitch (s : BridgeState) (v : ℚ)
    (h : s.sliderSet true v ≠ s) : (s.sliderSet true v).pitchPending = true := by
  rw [BridgeState.sliderSet, if_pos rfl] at h ⊢
  split_ifs at h ⊢ with hv
  · exact absurd rfl h
  · rfl

lemma applyBatch_pitchPending_mono (batch : List (Bool × ℚ)) :
    ∀ s : BridgeState, s.pitchPending = true →
      (s.applyBatch batch).pitchPending = true := by
  induction batch with
  | nil => intro s h; exact h
  | cons e rest ih =>
    intro s h
    exact ih (s.sliderSet e.1 e.2) (sliderSet_pitchPending_mono s e.1 e.2 h)

lemma applyBatch_pitchOnly_tempoPending (batch : List (Bool × ℚ)) :
    ∀ s : BridgeState, (∀ e ∈ batch, e.1 = true) →
      (s.applyBatch batch).tempoPending = s.tempoPending := by
  induction batch with
  | nil => intro s _; rfl
  | cons e rest ih =>
    intro s hb
    have he : e.1 = true := hb e (List.mem_cons_self e rest)
    have hcons : s.applyBatch (e :: rest)
        = (s.sliderSet e.1 e.2).applyBatch rest := rfl
    rw [hcons, ih _ (fun x hx => hb x (List.mem_cons_of_mem _ hx)), he,
      BridgeState.sliderSet, if_pos rfl]
    split_ifs <;> rfl

lemma applyBatch_changed_pitchOnly (batch : List (Bool × ℚ)) :
    ∀ s : BridgeState, (∀ e ∈ batch, e.1 = true) →
      s.applyBatch batch = s ∨ (s.applyBatch batch).pitchPending = true := by
  induction batch with
  | nil => intro s _; exact Or.inl rfl
  | cons e rest ih =>
    intro s hb
    have he : e.1 = true := hb e (List.mem_cons_self e rest)
    have hrest : ∀ x ∈ rest, x.1 = true :=
      fun x hx => hb x (List.mem_cons_of_mem _ hx)
    by_cases hch : s.sliderSet e.1 e.2 = s
    · have hcons : s.applyBatch (e :: rest)
          = (s.sliderSet e.1 e.2).applyBatch rest := rfl
      rw [hcons, hch]
      exact ih s hrest
    · right
      have hp : (s.sliderSet e.1 e.2).pitchPending = true := by
        rw [he] at hch ⊢
        exact sliderSet_changed_pitch s e.2 hch
      exact applyBatch_pitchPending_mono rest (s.sliderSet e.1 e.2) hp

/-- Claim C4, counterexample: from the freshly constructed bridge, the batch
that edits the pitch slider to 5 and the tempo slider to 1/2 changes both
stored values, and its dispatch delivers two recomputes to the effect host —
one per slider's own change broadcaster — not the exactly-one pass the claim
asserts. -/
theorem c4_counterexample : ¬ C4_stated := by
  intro h
  have hne : BridgeState.init.applyBatch [(true, 5), (false, 1 / 2)]
      ≠ BridgeState.init := by
    intro heq
    have hp := congrArg BridgeState.pitchPending heq
    norm_num [BridgeState.init, BridgeState.applyBatch, BridgeState.sliderSet,
      IIRFilterDemoDSP.init, SliderParameter.make, SliderParameter.setValue,
      constrainedValue, snapValue] at hp
  have h2 := (h BridgeState.init [(true, 5), (false, 1 / 2)]).2 rfl rfl hne
  norm_num [BridgeState.init, BridgeState.applyBatch, BridgeState.sliderSet,
    BridgeState.dispatchChange, IIRFilterDemoDSP.init, SliderParameter.make,
    SliderParameter.setValue, constrainedValue, snapValue] at h2

/-- Claim C4, amended: a control edit never pushes into the effect directly —
a batch of edits leaves the recompute count untouched, and a successful edit
only marks the pending notification of that control's own change broadcaster;
at the next dispatch every control whose notification is pending delivers
exactly one recompute to the effect host, so a batch of edits to one control
collapses to one recompute pass, while a batch spanning both controls yields
one pass per edited control, not one in total. -/
theorem c4_recompute_coalescing (s : BridgeState) (batch : List (Bool × ℚ)) :
    (s.applyBatch batch).recomputeCount = s.recomputeCount ∧
      (∀ which v, s.sliderSet which v ≠ s →
        (s.sliderSet which v).recomputeCount = s.recomputeCount ∧
          (which = true → (s.sliderSet which v).pitchPending = true ∧
            (s.sliderSet which v).tempoPending = s.tempoPending) ∧
          (which = false → (s.sliderSet which v).tempoPending = true ∧
            (s.sliderSet which v).pitchPending = s.pitchPending)) ∧
      ((s.applyBatch batch).dispatchChange).recomputeCount
        = s.recomputeCount
          + (if (s.applyBatch batch).pitchPending then 1 else 0)
          + (if (s.applyBatch batch).tempoPending then 1 else 0) ∧
      (s.pitchPending = false → s.tempoPending = false →
        (∀ e ∈ batch, e.1 = true) → s.applyBatch batch ≠ s →
        ((s.applyBatch batch).dispatchChange).recomputeCount
          = s.recomputeCount + 1) := by
  refine ⟨applyBatch_recomputeCount batch s, ?_, ?_, ?_⟩
  · intro which v hne
    cases which
    · rw [BridgeState.sliderSet, if_neg (by simp)] at hne ⊢
      split_ifs at hne ⊢ with hv
      · exact absurd rfl hne
      · exact ⟨rfl, fun hf => absurd hf (by simp), fun _ => ⟨rfl, rfl⟩⟩
    · rw [BridgeState.sliderSet, if_pos rfl] at hne ⊢
      split_ifs at hne ⊢ with hv
      · exact absurd rfl hne
      · exact ⟨rfl, fun _ => ⟨rfl, rfl⟩, fun hf => absurd hf (by simp)⟩
  · simp only [BridgeState.dispatchChange]
    rw [applyBatch_recomputeCount]
  · intro hp ht hb hne
    rcases applyBatch_changed_pitchOnly batch s hb with heq | hpp
    · exact absurd heq hne
    · have hte := applyBatch_pitchOnly_tempoPending batch s hb
      simp only [BridgeState.dispatchChange]
      rw [applyBatch_recomputeCount, hpp, hte, ht]
      simp

/-- Claim C4, witness: from the freshly constructed bridge, the single-slider
batch editing pitch to 5 performs no recompute by itself and its dispatch
delivers exactly one recompute pass. -/
theorem c4_witness :
    (BridgeState.init.applyBatch [(true, 5)]).recomputeCount
        = BridgeState.init.recomputeCount ∧
      ((BridgeState.init.applyBatch [(true, 5)]).dispatchChange).recomputeCount
        = BridgeState.init.recomputeCount + 1 :=
  ⟨(c4_recompute_coalescing BridgeState.init [(true, 5)]).1,
    (c4_recompute_coalescing BridgeState.init [(true, 5)]).2.2.2 rfl rfl
      (by intro e he; rw [List.mem_singleton] at he; rw [he])
      (by
        intro heq
        have hp := congrArg BridgeState.pitchPending heq
        norm_num [BridgeState.init, BridgeState.applyBatch,
          BridgeState.sliderSet, IIRFilterDemoDSP.init, SliderParameter.make,
          SliderParameter.setValue, constrainedValue, snapValue] at hp)⟩

/-- Claim C8: the Speed parameter's stored value always lies in
`[0.25, 2.0]` on the 0.25-step grid — initially and after any write — and
every recompute on a demo with a live resampler (the constructor always
wires one) unconditionally pushes the tempo parameter's current value into
the resampler as its ratio, with no capability gating on the effect. -/
theorem c8_ratio_invariant :
    tempoGridVal (IIRFilterDemoDSP.init.tempoParam.getCurrentValue) ∧
      (∀ p : SliderParameter, p.rangeMin = 1 / 4 → p.rangeMax = 2 →
        p.interval = 1 / 4 → ∀ v, tempoGridVal ((p.setValue v).getCurrentValue)) ∧
      (∀ d : DSPDemo, d.resampleRatioVal.isSome = true →
        d.changeListenerCallback.resampleRatioVal
          = some (d.processor.tempoParam.getCurrentValue)) := by
  refine ⟨?_, ?_, ?_⟩
  · have hv : IIRFilterDemoDSP.init.tempoParam.getCurrentValue = 1 := by
      norm_num [IIRFilterDemoDSP.init, SliderParameter.make,
        SliderParameter.setValue, SliderParameter.getCurrentValue,
        constrainedValue, snapValue]
    rw [tempoGridVal, hv]
    exact ⟨by norm_num, by norm_num, 4, by norm_num⟩
  · intro p h1 h2 h3 v
    obtain ⟨hb1, hb2, k, hk⟩ :=
      constrainedValue_mem p.rangeMin p.rangeMax p.interval v
        (by rw [h3]; norm_num) (by rw [h1, h2]; norm_num) 7
        (by rw [h1, h2, h3]; norm_num)
    refine ⟨?_, ?_, k + 1, ?_⟩
    · show (1 : ℚ) / 4 ≤ constrainedValue p.rangeMin p.rangeMax p.interval v
      rw [← h1]
      exact hb1
    · show constrainedValue p.rangeMin p.rangeMax p.interval v ≤ 2
      rw [← h2]
      exact hb2
    · show constrainedValue p.rangeMin p.rangeMax p.interval v
        = ((k + 1 : ℤ) : ℚ) * (1 / 4)
      rw [hk, h1, h3]
      push_cast
      ring
  · intro d hd
    match hm : d.resampleRatioVal with
    | none => rw [hm] at hd; exact Bool.noConfusion hd
    | some r =>
      have htempo : d.processor.updateParameters.tempoParam
          = d.processor.tempoParam := by
        rw [IIRFilterDemoDSP.updateParameters]
        split_ifs <;> rfl
      simp [DSPDemo.changeListenerCallback, hm, htempo]

/-- Claim C8, witness: writing 9/10 to the Speed parameter stores an
in-range grid value, and the fresh demo's recompute pushes the tempo value
into the resampler. -/
theorem c8_witness :
    tempoGridVal ((IIRFilterDemoDSP.init.tempoParam.setValue (9 / 10)).getCurrentValue) ∧
      demo0.changeListenerCallback.resampleRatioVal
        = some (demo0.processor.tempoParam.getCurrentValue) :=
  ⟨c8_ratio_invariant.2.1 IIRFilterDemoDSP.init.tempoParam rfl rfl rfl (9 / 10),
    c8_ratio_invariant.2.2 demo0 rfl⟩

end PlayerDemo
